import Mathlib

/-
Shallow embedding of the analysis-orchestration and rating subsystem of the
chessbot backend, together with theorems checking the specification claims.

Sources embedded:
  * backend/app/services/elo_service.py   (EloService)
  * backend/app/services/engine_service.py (EngineService)
  * backend/app/routers/analyze.py        (analyze_game sampling loop)

Python float arithmetic is modelled by real arithmetic; the builtin
round (round half to even, returning int) is modelled by pyRound.
-/

namespace Chessbot

/-- Model of the Python builtin round: round half to even, returning an
integer. -/
noncomputable def pyRound (x : ℝ) : ℤ :=
  if Int.fract x < 1 / 2 then ⌊x⌋
  else if 1 / 2 < Int.fract x then ⌈x⌉
  else if Even ⌊x⌋ then ⌊x⌋ else ⌊x⌋ + 1

lemma pyRound_intCast (n : ℤ) : pyRound (n : ℝ) = n := by
  unfold pyRound
  rw [Int.fract_intCast]
  simp

lemma pyRound_ofNat (n : ℕ) : pyRound (n : ℝ) = n := by
  have h : ((n : ℤ) : ℝ) = (n : ℝ) := by push_cast; ring
  rw [← h, pyRound_intCast]

/-- The Python round never moves a value by more than one half. -/
lemma abs_pyRound_sub_le (x : ℝ) : |(pyRound x : ℝ) - x| ≤ 1 / 2 := by
  have hfr0 : 0 ≤ Int.fract x := Int.fract_nonneg x
  have hfr1 : Int.fract x < 1 := Int.fract_lt_one x
  have hfx : (⌊x⌋ : ℝ) = x - Int.fract x := by
    rw [Int.self_sub_fract]
  unfold pyRound
  by_cases h1 : Int.fract x < 1 / 2
  · rw [if_pos h1, hfx, abs_sub_comm]
    rw [show x - (x - Int.fract x) = Int.fract x by ring]
    rw [abs_of_nonneg hfr0]
    linarith
  · rw [if_neg h1]
    by_cases h2 : 1 / 2 < Int.fract x
    · rw [if_pos h2]
      have hceil : (⌈x⌉ : ℝ) ≤ (⌊x⌋ : ℝ) + 1 := by
        exact_mod_cast Int.ceil_le_floor_add_one x
      have hge : x ≤ (⌈x⌉ : ℝ) := Int.le_ceil x
      rw [abs_of_nonneg (by linarith)]
      rw [hfx] at hceil
      linarith
    · have heq : Int.fract x = 1 / 2 := le_antisymm (le_of_not_lt h2) (le_of_not_lt h1)
      rw [if_neg h2]
      by_cases h3 : Even ⌊x⌋
      · rw [if_pos h3, hfx, abs_sub_comm]
        rw [show x - (x - Int.fract x) = Int.fract x by ring, heq]
        rw [abs_of_nonneg (by norm_num)]
      · rw [if_neg h3]
        push_cast
        rw [hfx, heq]
        rw [show x - 1 / 2 + 1 - x = 1 / 2 by ring]
        rw [abs_of_nonneg (by norm_num)]

/-- One game outcome as consumed by EloService.calculate_performance_rating
and calculate_rating_deviation: a dict with keys opponent_rating and score. -/
structure GameResult where
  opponent_rating : ℤ
  score : ℝ

/-- EloService, constructed with k_factor and default_rating
(defaults 32 and 1200 in the source constructor). -/
structure EloService where
  k_factor : ℝ
  default_rating : ℤ

/-- The EloService built by the default constructor arguments. -/
def elo32 : EloService := ⟨32, 1200⟩

/-- EloService.expected_score: the logistic formula
1 / (1 + 10 ** ((rating_b - rating_a) / 400)).  The annotations say int but
the method is also applied to float trial ratings inside
calculate_performance_rating, so the arguments are modelled as reals. -/
noncomputable def EloService.expected_score (_s : EloService) (rating_a rating_b : ℝ) : ℝ :=
  1 / (1 + (10 : ℝ) ^ ((rating_b - rating_a) / 400))

/-- The line player_change = k_factor * (score - expected) of
EloService.calculate_new_ratings. -/
noncomputable def EloService.player_change (s : EloService)
    (player_rating opponent_rating : ℤ) (score : ℝ) : ℝ :=
  s.k_factor * (score - s.expected_score player_rating opponent_rating)

/-- The line opponent_change = k_factor * ((1 - score) - (1 - expected)) of
EloService.calculate_new_ratings. -/
noncomputable def EloService.opponent_change (s : EloService)
    (player_rating opponent_rating : ℤ) (score : ℝ) : ℝ :=
  s.k_factor * ((1 - score) - (1 - s.expected_score player_rating opponent_rating))

/-- EloService.calculate_new_ratings: apply the two changes and round each
new rating to the nearest integer. -/
noncomputable def EloService.calculate_new_ratings (s : EloService)
    (player_rating opponent_rating : ℤ) (score : ℝ) : ℤ × ℤ :=
  (pyRound (player_rating + s.player_change player_rating opponent_rating score),
   pyRound (opponent_rating + s.opponent_change player_rating opponent_rating score))

/-- The body of one iteration of the fixed-point loop of
EloService.calculate_performance_rating:
new_rating = rating + k_factor * (sum_actual - sum_expected). -/
noncomputable def perfStep (s : EloService) (results : List GameResult) (rating : ℝ) : ℝ :=
  rating + s.k_factor *
    ((results.map GameResult.score).sum -
     (results.map fun r => s.expected_score rating (r.opponent_rating : ℝ)).sum)

/-- The for-loop of EloService.calculate_performance_rating with its early
break: at most fuel iterations; each computes new_rating = perfStep and
breaks (returning the current rating) once the step is below one rating
point, otherwise continues with the new rating. -/
noncomputable def perfLoop (s : EloService) (results : List GameResult) :
    ℕ → ℝ → ℝ
  | 0, rating => rating
  | fuel + 1, rating =>
    if |perfStep s results rating - rating| < 1 then rating
    else perfLoop s results fuel (perfStep s results rating)

/-- EloService.calculate_performance_rating: default_rating on no results,
a closed-form average for at most 4 results, and 20 iterations of the
fixed-point loop from initial_guess otherwise. -/
noncomputable def EloService.calculate_performance_rating (s : EloService)
    (results : List GameResult) (initial_guess : ℤ) : ℤ :=
  if results.isEmpty then s.default_rating
  else if results.length ≤ 4 then
    pyRound (((results.map GameResult.opponent_rating).sum : ℝ) / results.length
      + 400 * ((results.map GameResult.score).sum / results.length - 0.5))
  else
    pyRound (perfLoop s results 20 (initial_guess : ℝ))

/-- EloService.calculate_rating_deviation: 200.0 below 5 results, else the
root mean squared prediction error over the last 10 results scaled by 400. -/
noncomputable def EloService.calculate_rating_deviation (s : EloService)
    (results : List GameResult) (current_rating : ℤ) : ℝ :=
  if results.length < 5 then 200.0
  else
    let squared_errors := (results.drop (results.length - 10)).map fun r =>
      (r.score - s.expected_score (current_rating : ℝ) (r.opponent_rating : ℝ)) ^ 2
    if squared_errors.isEmpty then 200.0
    else Real.sqrt (squared_errors.sum / squared_errors.length) * 400

/-- Evaluation returned by stockfish.get_evaluation: a kind tag (cp or mate)
and a value. -/
structure EngineEval where
  kind : String
  value : ℤ
deriving DecidableEq

/-- One entry of the list returned by stockfish.get_top_moves. -/
structure TopMove where
  move : String
  centipawn : Option ℤ
  mate : Option ℤ
deriving DecidableEq

/-- Deterministic model of the external Stockfish wrapper held by
EngineService: each query is a function of the FEN last given to
set_fen_position.  get_best_move returns none when the engine reports no
move (terminal position). -/
structure Stockfish where
  is_fen_valid : String → Bool
  get_evaluation : String → EngineEval
  get_best_move : String → Option String
  get_top_moves : String → ℕ → List TopMove

/-- Errors surfaced by EngineService.analyze_position: the ValueError raised
on an invalid FEN (re-raised by the except block). -/
inductive EngineError where
  | invalidFen
deriving DecidableEq

/-- The dictionary returned by EngineService.analyze_position. -/
structure AnalysisResult where
  fen : String
  evaluation : EngineEval
  best_move : Option String
  top_moves : List TopMove
  depth : ℕ
deriving DecidableEq

/-- EngineService.analyze_position: validates the FEN with the engine, then
returns the evaluation, the best move and the top moves.  The source method
accepts only (fen, depth); it has no multipv parameter and the number of
top moves is hard-coded as get_top_moves(3); the depth argument is only
echoed back in the result. -/
def EngineService.analyze_position (sf : Stockfish) (fen : String) (depth : ℕ) :
    Except EngineError AnalysisResult :=
  if sf.is_fen_valid fen then
    Except.ok { fen := fen
                evaluation := sf.get_evaluation fen
                best_move := sf.get_best_move fen
                top_moves := sf.get_top_moves fen 3
                depth := depth }
  else Except.error EngineError.invalidFen

/-- The try block of EngineService.is_move_correct.  The engine query is
passed as an Except value: error when the stockfish call itself raises.
When get_best_move returns None, the expression best_move.lower() raises
AttributeError; otherwise the comparison move_uci.lower() == best_move.lower()
is returned. -/
def is_move_correct_try (best : Except String (Option String))
    (move_uci : String) : Except String Bool :=
  match best with
  | Except.error e => Except.error e
  | Except.ok none => Except.error "AttributeError"
  | Except.ok (some b) => Except.ok (move_uci.toLower == b.toLower)

/-- EngineService.is_move_correct: the try block with its except handler,
which logs and returns False on any exception. -/
def EngineService.is_move_correct (best : Except String (Option String))
    (move_uci : String) : Bool :=
  match is_move_correct_try best move_uci with
  | Except.ok b => b
  | Except.error _ => false

/-- One mainline ply of a parsed game, as consumed by the move loop of
analyze_game: the uci text of the move and the FEN of the board after the
move has been pushed. -/
structure GamePly where
  uci : String
  fen_after : String
deriving DecidableEq

/-- One entry appended to analysis_results by analyze_game. -/
structure PlyReport (α : Type) where
  move_number : ℕ
  move_color : String
  fen : String
  move : String
  analysis : α
deriving DecidableEq

/-- Exceptions raised inside the analyze_game endpoint of
routers/analyze.py: the AttributeError from calling readline on a list of
strings, and the TypeError from an unexpected keyword argument. -/
inductive PyError where
  | attributeError
  | typeError
deriving DecidableEq

/-- The PGN parse at the top of analyze_game:
chess.pgn.read_game(request.pgn.split) hands read_game a list of strings,
but read_game reads its handle with readline, which a list does not have,
so the call raises AttributeError for every input before any move is
walked. -/
def read_game_on_list (_pgn_lines : List String) :
    Except PyError (List GamePly) :=
  Except.error PyError.attributeError

/-- The per-ply analysis call of the analyze_game loop: the source invokes
engine_service.analyze_position with the keyword argument multipv, which
EngineService.analyze_position does not accept (its only parameters are fen
and depth), so the call raises TypeError before the engine is consulted. -/
def analyze_position_with_multipv (_fen : String) (_depth _multipv : ℕ) :
    Except PyError AnalysisResult :=
  Except.error PyError.typeError

/-- The move loop of analyze_game in routers/analyze.py: walk the mainline,
increment move_count per ply, skip plies whose count is not a multiple of
analyze_interval, call the per-ply analyzer on each remaining ply and append
one report entry per successful call.  The analyzer is fallible; an
exception at any analyzed ply aborts the loop and propagates (the endpoint
wraps the whole walk in one try block, so partial entries are discarded). -/
def analyzeGameLoop {α : Type} (analyze : String → Except PyError α)
    (analyze_interval : ℕ) :
    List GamePly → ℕ → Except PyError (List (PlyReport α))
  | [], _ => Except.ok []
  | p :: rest, move_count =>
    if (move_count + 1) % analyze_interval ≠ 0 then
      analyzeGameLoop analyze analyze_interval rest (move_count + 1)
    else
      match analyze p.fen_after with
      | Except.error e => Except.error e
      | Except.ok a =>
        match analyzeGameLoop analyze analyze_interval rest (move_count + 1) with
        | Except.error e => Except.error e
        | Except.ok tail =>
          Except.ok
            ({ move_number := (move_count + 1 + 1) / 2
               move_color := if (move_count + 1) % 2 = 1 then "white" else "black"
               fen := p.fen_after
               move := p.uci
               analysis := a } :: tail)

/-- The body of the analyze_game endpoint: split the PGN text into lines,
hand the list to read_game, then run the move loop from move_count = 0 with
the real per-ply call (analyze_position with the multipv keyword).  Any
exception is caught by the surrounding try block and mapped to an HTTP 400
response, surfaced here as the error case. -/
def analyze_game_endpoint (pgn : String)
    (depth multi_pv analyze_interval : ℕ) :
    Except PyError (List (PlyReport AnalysisResult)) :=
  match read_game_on_list (pgn.splitOn "\n") with
  | Except.error e => Except.error e
  | Except.ok plies =>
    analyzeGameLoop (fun fen => analyze_position_with_multipv fen depth multi_pv)
      analyze_interval plies 0

/-- The error type the specification expects RatingEngine to raise on
malformed numeric input. -/
inductive RatingError where
  | invalidRatingInput
deriving DecidableEq

/-- Exception-aware embedding of EloService.expected_score: the body is a
single return expression with no validation and no raise site, so every
input produces a normal value. -/
noncomputable def EloService.expected_score_run (s : EloService)
    (rating_a rating_b : ℝ) : Except RatingError ℝ :=
  Except.ok (s.expected_score rating_a rating_b)

/-- Exception-aware embedding of EloService.calculate_new_ratings: the body
contains no validation and no raise site. -/
noncomputable def EloService.calculate_new_ratings_run (s : EloService)
    (player_rating opponent_rating : ℤ) (score : ℝ) : Except RatingError (ℤ × ℤ) :=
  Except.ok (s.calculate_new_ratings player_rating opponent_rating score)

/-- Exception-aware embedding of EloService.calculate_performance_rating:
the body contains no validation and no raise site. -/
noncomputable def EloService.calculate_performance_rating_run (s : EloService)
    (results : List GameResult) (initial_guess : ℤ) : Except RatingError ℤ :=
  Except.ok (s.calculate_performance_rating results initial_guess)

/-- Exception-aware embedding of EloService.calculate_rating_deviation:
the body contains no validation and no raise site. -/
noncomputable def EloService.calculate_rating_deviation_run (s : EloService)
    (results : List GameResult) (current_rating : ℤ) : Except RatingError ℝ :=
  Except.ok (s.calculate_rating_deviation results current_rating)

/-- The standard chess starting position. -/
def startFen : String := "rnbqkbnr/pppppppp/8/8/8/8/PPPPPPPP/RNBQKBNR w KQkq - 0 1"

/-- A Stockfish model at the starting position: the FEN is valid, a best
move exists, and the engine honours the requested number of lines (the
starting position has 20 legal moves, so get_top_moves n returns exactly
min n 20 entries). -/
def startStockfish : Stockfish where
  is_fen_valid := fun _ => true
  get_evaluation := fun _ => ⟨"cp", 20⟩
  get_best_move := fun _ => some "e2e4"
  get_top_moves := fun _ n => List.replicate (min n 20) ⟨"e2e4", some 20, none⟩

lemma expected_score_self (s : EloService) (r : ℝ) : s.expected_score r r = 1 / 2 := by
  unfold EloService.expected_score
  rw [sub_self, zero_div, Real.rpow_zero]
  norm_num

lemma expected_score_add_swap (s : EloService) (a b : ℝ) :
    s.expected_score a b + s.expected_score b a = 1 := by
  unfold EloService.expected_score
  have hneg : (10 : ℝ) ^ ((a - b) / 400) = ((10 : ℝ) ^ ((b - a) / 400))⁻¹ := by
    rw [show (a - b) / 400 = -((b - a) / 400) by ring, Real.rpow_neg (by norm_num)]
  rw [hneg]
  have htpos : (0 : ℝ) < (10 : ℝ) ^ ((b - a) / 400) :=
    Real.rpow_pos_of_pos (by norm_num) _
  have ht0 : (10 : ℝ) ^ ((b - a) / 400) ≠ 0 := ne_of_gt htpos
  have h1 : (1 : ℝ) + (10 : ℝ) ^ ((b - a) / 400) ≠ 0 := by positivity
  have h2 : (1 : ℝ) + ((10 : ℝ) ^ ((b - a) / 400))⁻¹ ≠ 0 := by positivity
  field_simp
  ring

/-- Claim C7: for all ratings a and b, expected_score a b + expected_score b a
equals 1 within 1e-9 (the identity is in fact exact), and expected_score r r
equals 0.5 for every rating r. -/
theorem expected_score_symmetric (s : EloService) (a b r : ℝ) :
    |s.expected_score a b + s.expected_score b a - 1| ≤ 1e-9 ∧
    s.expected_score r r = 0.5 := by
  constructor
  · rw [expected_score_add_swap, sub_self, abs_zero]
    norm_num
  · rw [expected_score_self]
    norm_num

lemma opponent_change_eq_neg (s : EloService) (p o : ℤ) (score : ℝ) :
    s.opponent_change p o score = -s.player_change p o score := by
  unfold EloService.opponent_change EloService.player_change
  ring

/-- Claim C3: for valid inputs with the score in [0,1], the two pre-rounding
rating changes of calculate_new_ratings are exact opposites, and therefore
the two rounded deltas sum to zero up to the rounding of each new rating
(their sum has absolute value at most 1). -/
theorem calculate_new_ratings_zero_sum (s : EloService) (p o : ℤ) (score : ℝ)
    (h0 : 0 ≤ score) (h1 : score ≤ 1) :
    s.player_change p o score + s.opponent_change p o score = 0 ∧
    |(((s.calculate_new_ratings p o score).1 : ℝ) - p) +
      (((s.calculate_new_ratings p o score).2 : ℝ) - o)| ≤ 1 := by
  constructor
  · rw [opponent_change_eq_neg]; ring
  · unfold EloService.calculate_new_ratings
    rw [opponent_change_eq_neg]
    have ha := abs_pyRound_sub_le ((p : ℝ) + s.player_change p o score)
    have hb := abs_pyRound_sub_le ((o : ℝ) + -s.player_change p o score)
    have hsum :
        ((pyRound ((p : ℝ) + s.player_change p o score) : ℝ) - p) +
          ((pyRound ((o : ℝ) + -s.player_change p o score) : ℝ) - o) =
        ((pyRound ((p : ℝ) + s.player_change p o score) : ℝ) -
            ((p : ℝ) + s.player_change p o score)) +
          ((pyRound ((o : ℝ) + -s.player_change p o score) : ℝ) -
            ((o : ℝ) + -s.player_change p o score)) := by ring
    calc |(((pyRound ((p : ℝ) + s.player_change p o score), pyRound ((o : ℝ) + -s.player_change p o score)).1 : ℝ) - p) + (((pyRound ((p : ℝ) + s.player_change p o score), pyRound ((o : ℝ) + -s.player_change p o score)).2 : ℝ) - o)|
        = |((pyRound ((p : ℝ) + s.player_change p o score) : ℝ) - ((p : ℝ) + s.player_change p o score)) + ((pyRound ((o : ℝ) + -s.player_change p o score) : ℝ) - ((o : ℝ) + -s.player_change p o score))| := by
          rw [← hsum]
      _ ≤ |(pyRound ((p : ℝ) + s.player_change p o score) : ℝ) - ((p : ℝ) + s.player_change p o score)| + |(pyRound ((o : ℝ) + -s.player_change p o score) : ℝ) - ((o : ℝ) + -s.player_change p o score)| := abs_add _ _
      _ ≤ 1 := by linarith

/-- Witness for claim C3 at the concrete input (1200, 1000, score 1). -/
theorem calculate_new_ratings_zero_sum_witness :
    (0 : ℝ) ≤ 1 ∧ (1 : ℝ) ≤ 1 ∧
    (elo32.player_change 1200 1000 1 + elo32.opponent_change 1200 1000 1 = 0 ∧
      |(((elo32.calculate_new_ratings 1200 1000 1).1 : ℝ) - (1200 : ℤ)) +
        (((elo32.calculate_new_ratings 1200 1000 1).2 : ℝ) - (1000 : ℤ))| ≤ 1) :=
  ⟨by norm_num, by norm_num,
    calculate_new_ratings_zero_sum elo32 1200 1000 1 (by norm_num) (by norm_num)⟩

/-- Claim C8: is_move_correct returns true exactly when the engine query
succeeds with a present best move whose lowercase text equals the lowercase
candidate; every other input yields false. -/
theorem is_move_correct_iff_best (best : Except String (Option String))
    (move_uci : String) :
    EngineService.is_move_correct best move_uci = true ↔
      ∃ b, best = Except.ok (some b) ∧ move_uci.toLower = b.toLower := by
  unfold EngineService.is_move_correct is_move_correct_try
  rcases best with e | ob
  · simp
  · rcases ob with _ | b
    · simp
    · simp [beq_iff_eq]

/-- Claim C10: is_move_correct never propagates an exception: every error of
the try block (an engine failure, or the missing best move of a terminal
position) is caught and turned into the return value false. -/
theorem is_move_correct_never_raises (best : Except String (Option String))
    (move_uci : String) :
    (∀ e, is_move_correct_try best move_uci = Except.error e →
        EngineService.is_move_correct best move_uci = false) ∧
    (∀ e, best = Except.error e →
        EngineService.is_move_correct best move_uci = false) ∧
    (best = Except.ok none →
        EngineService.is_move_correct best move_uci = false) := by
  refine ⟨?_, ?_, ?_⟩
  · intro e he
    unfold EngineService.is_move_correct
    rw [he]
  · intro e he
    subst he
    rfl
  · intro he
    subst he
    rfl

/-- Claim C9, counterexample: at the malformed input (player -100,
opponent -100, score 2) calculate_new_ratings returns the value (-52, -148)
normally instead of failing with InvalidRatingInputError. -/
theorem malformed_input_returns_value :
    elo32.calculate_new_ratings_run (-100) (-100) 2 = Except.ok (-52, -148) := by
  unfold EloService.calculate_new_ratings_run EloService.calculate_new_ratings
  rw [opponent_change_eq_neg]
  have he : elo32.player_change (-100) (-100) 2 = 48 := by
    unfold EloService.player_change
    rw [show ((-100 : ℤ) : ℝ) = ((-100 : ℝ)) by norm_num]
    rw [expected_score_self]
    norm_num [elo32]
  rw [he]
  rw [show ((-100 : ℤ) : ℝ) + (48 : ℝ) = (((-52 : ℤ) : ℝ)) by norm_num]
  rw [show ((-100 : ℤ) : ℝ) + -(48 : ℝ) = (((-148 : ℤ) : ℝ)) by norm_num]
  rw [pyRound_intCast, pyRound_intCast]

/-- Claim C9, amended: no EloService operation validates its input or can
raise; every call, malformed numeric input included, returns its computed
value normally. -/
theorem rating_engine_never_raises (s : EloService) (a b : ℝ) (p o : ℤ)
    (score : ℝ) (results : List GameResult) (g cr : ℤ) :
    s.expected_score_run a b = Except.ok (s.expected_score a b) ∧
    s.calculate_new_ratings_run p o score =
      Except.ok (s.calculate_new_ratings p o score) ∧
    s.calculate_performance_rating_run results g =
      Except.ok (s.calculate_performance_rating results g) ∧
    s.calculate_rating_deviation_run results cr =
      Except.ok (s.calculate_rating_deviation results cr) :=
  ⟨rfl, rfl, rfl, rfl⟩

/-- Claim C2: analyze_position has no multipv parameter at all; the number
of returned top moves is hard-coded as get_top_moves(3), so with an engine
honouring the request it returns 3 top moves even when the caller asked for
multipv = 1, violating the claimed bound. -/
theorem analyze_position_hardcodes_top_moves :
    (∀ (sf : Stockfish) (fen : String) (depth : ℕ) (res : AnalysisResult),
        EngineService.analyze_position sf fen depth = Except.ok res →
        res.top_moves = sf.get_top_moves fen 3) ∧
    (EngineService.analyze_position startStockfish startFen 18).map
        (fun res => res.top_moves.length) = Except.ok 3 ∧
    ¬ (3 : ℕ) ≤ 1 := by
  refine ⟨?_, rfl, by decide⟩
  intro sf fen depth res h
  unfold EngineService.analyze_position at h
  by_cases hv : sf.is_fen_valid fen
  · rw [if_pos hv] at h
    cases h
    rfl
  · rw [if_neg hv] at h
    cases h

/-- Claim C5: calculate_rating_deviation returns exactly 200.0 for fewer
than 5 results; for at least 5 results it returns 400 times the square root
of the mean squared prediction error over at most the 10 most recent
results; and the result is always non-negative. -/
theorem calculate_rating_deviation_spec (s : EloService)
    (results : List GameResult) (current_rating : ℤ) :
    (results.length < 5 →
      s.calculate_rating_deviation results current_rating = 200.0) ∧
    (5 ≤ results.length →
      s.calculate_rating_deviation results current_rating =
        400 * Real.sqrt
          ((((results.drop (results.length - 10)).map fun r =>
              (r.score - s.expected_score (current_rating : ℝ)
                (r.opponent_rating : ℝ)) ^ 2).sum) /
            ((results.drop (results.length - 10)).length))) ∧
    0 ≤ s.calculate_rating_deviation results current_rating := by
  unfold EloService.calculate_rating_deviation
  by_cases hlt : results.length < 5
  · rw [if_pos hlt]
    exact ⟨fun _ => rfl, fun h5 => absurd h5 (by omega), by norm_num⟩
  · rw [if_neg hlt]
    have h5 : 5 ≤ results.length := le_of_not_lt hlt
    have hdlen : (results.drop (results.length - 10)).length =
        results.length - (results.length - 10) := List.length_drop _ _
    have hmaplen : ((results.drop (results.length - 10)).map fun r =>
        (r.score - s.expected_score (current_rating : ℝ)
          (r.opponent_rating : ℝ)) ^ 2).length =
        (results.drop (results.length - 10)).length := List.length_map _ _
    have hne : ((results.drop (results.length - 10)).map fun r =>
        (r.score - s.expected_score (current_rating : ℝ)
          (r.opponent_rating : ℝ)) ^ 2) ≠ [] := by
      intro hnil
    -- a list of positive length is not nil
      have : ((results.drop (results.length - 10)).map fun r =>
          (r.score - s.expected_score (current_rating : ℝ)
            (r.opponent_rating : ℝ)) ^ 2).length = 0 := by rw [hnil]; rfl
      omega
    have hemp : ((results.drop (results.length - 10)).map fun r =>
        (r.score - s.expected_score (current_rating : ℝ)
          (r.opponent_rating : ℝ)) ^ 2).isEmpty = false := by
      rcases h : ((results.drop (results.length - 10)).map fun r =>
          (r.score - s.expected_score (current_rating : ℝ)
            (r.opponent_rating : ℝ)) ^ 2).isEmpty with hf | ht
      · exact h
      · exact absurd (List.isEmpty_iff.mp h) hne
    simp only [hemp, Bool.false_eq_true, if_false]
    refine ⟨fun h => absurd h (by omega), fun _ => ?_, ?_⟩
    · rw [hmaplen, mul_comm]
    · positivity

/-- Claim C4: calculate_performance_rating returns default_rating on the
empty list; for 1 to 4 results it returns the rounded closed-form value
(average opponent rating plus 400 times (average score minus 0.5)); and the
single result (1500, 1.0) yields 1700. -/
theorem calculate_performance_rating_small (s : EloService) (g : ℤ)
    (results : List GameResult) :
    s.calculate_performance_rating [] g = s.default_rating ∧
    (results ≠ [] → results.length ≤ 4 →
      s.calculate_performance_rating results g =
        pyRound (((results.map GameResult.opponent_rating).sum : ℝ) / results.length
          + 400 * ((results.map GameResult.score).sum / results.length - 0.5))) ∧
    s.calculate_performance_rating [⟨1500, 1.0⟩] g = 1700 := by
  refine ⟨rfl, ?_, ?_⟩
  · intro hne h4
    unfold EloService.calculate_performance_rating
    have hemp : results.isEmpty = false := by
      rcases h : results.isEmpty with hf | ht
      · rfl
      · exact absurd (List.isEmpty_iff.mp h) hne
    simp only [hemp, Bool.false_eq_true, if_false, if_pos h4]
  · unfold EloService.calculate_performance_rating
    simp only [List.isEmpty_cons, List.length_cons, List.length_nil]
    norm_num
    rw [show (1700 : ℝ) = ((1700 : ℤ) : ℝ) by norm_num]
    rw [pyRound_intCast]

/-- A concrete 10-ply game. -/
def tenPlies : List GamePly :=
  [⟨"p1", "f1"⟩, ⟨"p2", "f2"⟩, ⟨"p3", "f3"⟩, ⟨"p4", "f4"⟩, ⟨"p5", "f5"⟩,
   ⟨"p6", "f6"⟩, ⟨"p7", "f7"⟩, ⟨"p8", "f8"⟩, ⟨"p9", "f9"⟩, ⟨"p10", "f10"⟩]

/-- Claim C6, code evaluation: the analyze_game endpoint can never produce
the claimed report.  Every request already fails at the PGN parse with
AttributeError; and even with parsing bypassed, the per-ply
analyze_position call with the multipv keyword raises TypeError at the
first analyzed ply, so on the 10-ply game with analyze_interval 3 the move
loop aborts at ply 3 with no entry instead of returning 3 entries. -/
theorem analyze_game_never_returns_report :
    (∀ (pgn : String) (depth multi_pv analyze_interval : ℕ),
      analyze_game_endpoint pgn depth multi_pv analyze_interval =
        Except.error PyError.attributeError) ∧
    analyzeGameLoop (fun fen => analyze_position_with_multipv fen 18 3) 3
        tenPlies 0 =
      Except.error PyError.typeError := by
  constructor
  · intro pgn depth multi_pv analyze_interval
    rfl
  · rfl

lemma perfLoop_of_first_conv (s : EloService) (results : List GameResult) :
    ∀ (fuel N : ℕ) (r : ℝ), N < fuel →
      |perfStep s results ((perfStep s results)^[N] r) -
        (perfStep s results)^[N] r| < 1 →
      (∀ j < N, ¬ |perfStep s results ((perfStep s results)^[j] r) -
        (perfStep s results)^[j] r| < 1) →
      perfLoop s results fuel r = (perfStep s results)^[N] r := by
  intro fuel
  induction fuel with
  | zero => intro N r hN; exact absurd hN (Nat.not_lt_zero N)
  | succ m ih =>
    intro N r hN hconv hmin
    cases N with
    | zero =>
      rw [Function.iterate_zero_apply] at hconv ⊢
      unfold perfLoop
      rw [if_pos hconv]
    | succ n =>
      have h0 : ¬ |perfStep s results r - r| < 1 := by
        have := hmin 0 (Nat.succ_pos n)
        rwa [Function.iterate_zero_apply] at this
      unfold perfLoop
      rw [if_neg h0]
      have step := ih n (perfStep s results r) (by omega) ?_ ?_
      · rw [step, ← Function.iterate_succ_apply]
      · rw [← Function.iterate_succ_apply]
        exact hconv
      · intro j hj
        rw [← Function.iterate_succ_apply]
        exact hmin (j + 1) (by omega)

lemma perfLoop_of_no_conv (s : EloService) (results : List GameResult) :
    ∀ (fuel : ℕ) (r : ℝ),
      (∀ j < fuel, ¬ |perfStep s results ((perfStep s results)^[j] r) -
        (perfStep s results)^[j] r| < 1) →
      perfLoop s results fuel r = (perfStep s results)^[fuel] r := by
  intro fuel
  induction fuel with
  | zero => intro r _; rfl
  | succ m ih =>
    intro r hmin
    have h0 : ¬ |perfStep s results r - r| < 1 := by
      have := hmin 0 (Nat.succ_pos m)
      rwa [Function.iterate_zero_apply] at this
    unfold perfLoop
    rw [if_neg h0]
    have hih := ih (perfStep s results r) (fun j hj => by
      rw [← Function.iterate_succ_apply]
      exact hmin (j + 1) (by omega))
    rw [hih, ← Function.iterate_succ_apply]

/-- Claim C1: for more than 4 results, calculate_performance_rating runs a
fixed-point iteration of perfStep from initial_guess; it returns the
rounded iterate at the first index below 20 where the nudge falls under one
rating point, and the rounded 20th iterate when no early convergence
happens. -/
theorem calculate_performance_rating_iterative (s : EloService)
    (results : List GameResult) (initial_guess : ℤ)
    (h4 : 4 < results.length) :
    (∀ N < 20,
      |perfStep s results ((perfStep s results)^[N] (initial_guess : ℝ)) -
        (perfStep s results)^[N] (initial_guess : ℝ)| < 1 →
      (∀ j < N, ¬ |perfStep s results ((perfStep s results)^[j] (initial_guess : ℝ)) -
        (perfStep s results)^[j] (initial_guess : ℝ)| < 1) →
      s.calculate_performance_rating results initial_guess =
        pyRound ((perfStep s results)^[N] (initial_guess : ℝ))) ∧
    ((∀ j < 20, ¬ |perfStep s results ((perfStep s results)^[j] (initial_guess : ℝ)) -
        (perfStep s results)^[j] (initial_guess : ℝ)| < 1) →
      s.calculate_performance_rating results initial_guess =
        pyRound ((perfStep s results)^[20] (initial_guess : ℝ))) := by
  have hnil : results ≠ [] := by
    intro h
    rw [h] at h4
    simp at h4
  have hemp : results.isEmpty = false := by
    rcases h : results.isEmpty with hf | ht
    · rfl
    · exact absurd (List.isEmpty_iff.mp h) hnil
  have hgt : ¬ results.length ≤ 4 := by omega
  have hcalc : s.calculate_performance_rating results initial_guess =
      pyRound (perfLoop s results 20 (initial_guess : ℝ)) := by
    unfold EloService.calculate_performance_rating
    rw [hemp]
    simp only [Bool.false_eq_true, if_false, if_neg hgt]
  constructor
  · intro N hN hconv hmin
    rw [hcalc, perfLoop_of_first_conv s results 20 N _ hN hconv hmin]
  · intro hmin
    rw [hcalc, perfLoop_of_no_conv s results 20 _ hmin]

/-- Ten draws against 1500-rated opposition. -/
def tenDraws : List GameResult := List.replicate 10 ⟨1500, 0.5⟩

lemma perfStep_tenDraws : perfStep elo32 tenDraws (1500 : ℝ) = 1500 := by
  unfold perfStep tenDraws
  rw [List.map_replicate, List.map_replicate, List.sum_replicate, List.sum_replicate]
  have hcast : (((⟨1500, 0.5⟩ : GameResult).opponent_rating : ℤ) : ℝ) = (1500 : ℝ) := by
    norm_num
  rw [hcast, expected_score_self]
  simp only [nsmul_eq_mul]
  norm_num [elo32]

lemma perf_tenDraws_value :
    elo32.calculate_performance_rating tenDraws 1500 = 1500 := by
  have hemp : tenDraws.isEmpty = false := by rfl
  have hlen : tenDraws.length = 10 := by rfl
  unfold EloService.calculate_performance_rating
  rw [hemp, hlen]
  simp only [Bool.false_eq_true, if_false]
  rw [if_neg (by omega)]
  have hcast : ((1500 : ℤ) : ℝ) = (1500 : ℝ) := by norm_num
  rw [hcast]
  rw [show (20 : ℕ) = 19 + 1 from rfl]
  unfold perfLoop
  rw [perfStep_tenDraws]
  rw [if_pos (by norm_num : |(1500 : ℝ) - 1500| < 1)]
  rw [show (1500 : ℝ) = ((1500 : ℤ) : ℝ) by norm_num, pyRound_intCast]

/-- Witness for claim C1: ten draws against 1500 from initial guess 1500;
the iteration is stationary there and the performance rating is 1500. -/
theorem calculate_performance_rating_iterative_witness :
    (4 < tenDraws.length ∧
      ((∀ N < 20,
        |perfStep elo32 tenDraws ((perfStep elo32 tenDraws)^[N] ((1500 : ℤ) : ℝ)) -
          (perfStep elo32 tenDraws)^[N] ((1500 : ℤ) : ℝ)| < 1 →
        (∀ j < N, ¬ |perfStep elo32 tenDraws ((perfStep elo32 tenDraws)^[j] ((1500 : ℤ) : ℝ)) -
          (perfStep elo32 tenDraws)^[j] ((1500 : ℤ) : ℝ)| < 1) →
        elo32.calculate_performance_rating tenDraws 1500 =
          pyRound ((perfStep elo32 tenDraws)^[N] ((1500 : ℤ) : ℝ))) ∧
      ((∀ j < 20, ¬ |perfStep elo32 tenDraws ((perfStep elo32 tenDraws)^[j] ((1500 : ℤ) : ℝ)) -
          (perfStep elo32 tenDraws)^[j] ((1500 : ℤ) : ℝ)| < 1) →
        elo32.calculate_performance_rating tenDraws 1500 =
          pyRound ((perfStep elo32 tenDraws)^[20] ((1500 : ℤ) : ℝ))))) ∧
    elo32.calculate_performance_rating tenDraws 1500 = 1500 :=
  ⟨⟨by norm_num [tenDraws],
      calculate_performance_rating_iterative elo32 tenDraws 1500 (by norm_num [tenDraws])⟩,
    perf_tenDraws_value⟩

end Chessbot
